import Mathlib

/-!
Verification of the beancount-import Dwight CSV source
(`beancount_import/source/dwight.py`).

The file shallowly embeds the record loaders, the key extraction
functions, the import-result synthesizer and the `prepare` pipeline of
`dwight.py`.  A CSV file is modelled as its header (list of column
names) together with its data rows, each row a record of the seven
string-valued columns; `csv.DictReader` / file-system specifics stay
outside the model.  Exceptions are modelled by `Except`, Python
`Decimal` numbers by `ℚ`, and `datetime.date` by a year/month/day
structure with calendar successor.  The reconciliation engine
(`description_based_source.get_pending_and_invalid_entries`) and
account-mapping helper (`get_account_mapping`) are not part of the
source tree and are modelled from the specification, as marked on
their doc comments.
-/

/-- Decidable equality of `Except` values, used to evaluate loader
results on concrete inputs. -/
instance {ε α : Type} [DecidableEq ε] [DecidableEq α] :
    DecidableEq (Except ε α) := fun x y =>
  match x, y with
  | .ok a, .ok b =>
    if h : a = b then isTrue (by rw [h])
    else isFalse (fun hc => by cases hc; exact h rfl)
  | .error a, .error b =>
    if h : a = b then isTrue (by rw [h])
    else isFalse (fun hc => by cases hc; exact h rfl)
  | .ok _, .error _ => isFalse (fun hc => by cases hc)
  | .error _, .ok _ => isFalse (fun hc => by cases hc)

namespace Dwight

/-- A calendar date, modelling Python `datetime.date`. -/
structure Date where
  year : Nat
  month : Nat
  day : Nat
deriving DecidableEq

/-- Comparison of dates, modelling Python `date` ordering
(lexicographic on year, month, day). -/
def Date.le (a b : Date) : Prop :=
  a.year < b.year ∨
    (a.year = b.year ∧
      (a.month < b.month ∨ (a.month = b.month ∧ a.day ≤ b.day)))

instance Date.decLe (a b : Date) : Decidable (Date.le a b) :=
  decidable_of_iff
    (a.year < b.year ∨
      (a.year = b.year ∧
        (a.month < b.month ∨ (a.month = b.month ∧ a.day ≤ b.day))))
    Iff.rfl

/-- Gregorian leap-year rule (as used by Python `datetime`). -/
def isLeapYear (y : Nat) : Bool :=
  y % 4 == 0 && (y % 100 != 0 || y % 400 == 0)

/-- Number of days in a month (as validated by Python `datetime.date`). -/
def daysInMonth (y m : Nat) : Nat :=
  if m = 2 then (if isLeapYear y then 29 else 28)
  else if m = 4 ∨ m = 6 ∨ m = 9 ∨ m = 11 then 30
  else 31

/-- Calendar successor of a date, modelling
`date + datetime.timedelta(days=1)`. -/
def nextDay (d : Date) : Date :=
  if d.day < daysInMonth d.year d.month then ⟨d.year, d.month, d.day + 1⟩
  else if d.month < 12 then ⟨d.year, d.month + 1, 1⟩
  else ⟨d.year + 1, 1, 1⟩

/-- Value of a list of decimal digit characters. -/
def digitsToNat (l : List Char) : Nat :=
  l.foldl (fun a c => a * 10 + (c.toNat - 48)) 0

/-- Parse a non-empty all-digit character sequence. -/
def parseNatDigits (l : List Char) : Option Nat :=
  if l ≠ [] ∧ l.all Char.isDigit then some (digitsToNat l)
  else none

/-- Split a list of characters at every occurrence of `sep`. -/
def splitOnChar (sep : Char) : List Char → List (List Char)
  | [] => [[]]
  | c :: cs =>
    if c = sep then [] :: splitOnChar sep cs
    else
      match splitOnChar sep cs with
      | [] => [[c]]
      | g :: gs => (c :: g) :: gs

/-- Parse a date string in the fixed `dwight_date_format` `%Y-%m-%d`,
modelling `datetime.datetime.strptime(s, '%Y-%m-%d').date()`: a
four-digit year, a one-or-two-digit month in 1..12 and a
one-or-two-digit day valid for that month; anything else fails. -/
def parseDate (s : String) : Option Date :=
  match splitOnChar '-' s.toList with
  | [ys, ms, ds] =>
    match parseNatDigits ys, parseNatDigits ms, parseNatDigits ds with
    | some y, some m, some d =>
      if ys.length = 4 ∧ ms.length ≤ 2 ∧ ds.length ≤ 2 ∧
          1 ≤ m ∧ m ≤ 12 ∧ 1 ≤ d ∧ d ≤ daysInMonth y m
      then some ⟨y, m, d⟩
      else none
    | _, _, _ => none
  | _ => none

/-- Parse a decimal literal given as characters, modelling
`beancount.core.number.D` (`Decimal(s.replace(',', ''))`): commas are
stripped, an optional leading sign is followed by digits with at most
one decimal point and at least one digit overall.  (Exponent and
infinity/NaN forms are not exercised by this source and are omitted.) -/
def parseDChars (cs : List Char) : Option ℚ :=
  let t := cs.filter (fun c => c != ',')
  let signAndRest : Bool × List Char :=
    match t with
    | '-' :: r => (true, r)
    | '+' :: r => (false, r)
    | r => (false, r)
  let build : Nat → Nat → Option ℚ := fun num den =>
    some (if signAndRest.1 then mkRat (-(num : ℤ)) den else mkRat num den)
  match splitOnChar '.' signAndRest.2 with
  | [ip] =>
    if ip ≠ [] ∧ ip.all Char.isDigit then build (digitsToNat ip) 1
    else none
  | [ip, fp] =>
    if (ip ≠ [] ∨ fp ≠ []) ∧ ip.all Char.isDigit ∧ fp.all Char.isDigit then
      build (digitsToNat ip * 10 ^ fp.length + digitsToNat fp)
        (10 ^ fp.length)
    else none
  | _ => none

/-- Model of `beancount.core.number.D` on a string. -/
def parseD (s : String) : Option ℚ :=
  parseDChars s.toList

/-- The signed-amount parse performed per row:
`sgn = row[...][0]; number = D(row[...]) if sgn != '-' else -D(row[...][1:])`.
Indexing an empty string raises, modelled by `none`. -/
def parseNumber (s : String) : Option ℚ :=
  match s.toList with
  | [] => none
  | c :: rest =>
    if c = '-' then (parseDChars rest).map (fun q => -q)
    else parseDChars (c :: rest)

/-- A decimal number together with a currency code, modelling
`beancount.core.amount.Amount`. -/
structure Amount where
  number : ℚ
  currency : String
deriving DecidableEq

/-- Negation of an amount (negates the number, keeps the currency),
modelling `-amount` on `beancount` amounts. -/
def Amount.neg (a : Amount) : Amount :=
  { a with number := -a.number }

/-- One data row of the CSV export: the seven string-valued columns
`Date, Description, Category, Cost, Currency, Zhuohan Li, Zhanghao Wu`
as produced by `csv.DictReader` under the validated header. -/
structure Row where
  date : String
  description : String
  category : String
  cost : String
  currency : String
  zhuohanLi : String
  zhanghaoWu : String
deriving DecidableEq

/-- A CSV file: its header line and its data rows. -/
structure CsvFile where
  header : List String
  rows : List Row
deriving DecidableEq

/-- The `expected_field_names` constant of both loaders. -/
def expected_field_names : List String :=
  ["Date", "Description", "Category", "Cost",
   "Currency", "Zhuohan Li", "Zhanghao Wu"]

/-- The `DwightEntry` namedtuple. -/
structure DwightEntry where
  account : String
  date : Date
  amount : Amount
  source_desc : String
  filename : String
  line : Nat
deriving DecidableEq

/-- The `RawBalance` namedtuple. -/
structure RawBalance where
  account : String
  date : Date
  amount : Amount
  filename : String
  line : Nat
deriving DecidableEq

/-- Errors raised while loading a file.  `wrongFormat` models
`RuntimeError('CSV file has incorrect format', filename)` (the only
error that carries the file path); `fieldNameMismatch` models the
header-mismatch `RuntimeError`; `invalidDate` models
`RuntimeError('Invalid date: %r' % ...)`; `badAmount` models the
exception escaping from the amount parse (`IndexError` on an empty
field or the `Decimal` constructor's error). -/
inductive LoadError where
  | wrongFormat (filename : String)
  | fieldNameMismatch (actual expected : List String)
  | invalidDate (raw : String)
  | badAmount (raw : String)
deriving DecidableEq

/-- The file path carried by a load error, if any. -/
def errorFilename : LoadError → Option String
  | .wrongFormat f => some f
  | _ => none

/-- Processing of one row of the transactions file, in source order:
the signed amount is parsed first (any failure aborts), then
zero-amount rows and `'Total balance'` rows are skipped (`.ok none`),
then the date is parsed (failure aborts). -/
def parseTxnRow (currency filename : String) (lineNo : Nat) (row : Row) :
    Except LoadError (Option DwightEntry) :=
  match parseNumber row.zhanghaoWu with
  | none => .error (.badAmount row.zhanghaoWu)
  | some number =>
    if number = 0 ∨ row.description = "Total balance" then .ok none
    else
      match parseDate row.date with
      | none => .error (.invalidDate row.date)
      | some date =>
        .ok (some
          { account := "Zhuohan Li"
            date := date
            amount := { number := number, currency := currency }
            source_desc := row.description
            filename := filename
            line := lineNo })

/-- The row loop of `load_transactions` (`enumerate` gives the 0-based
index `i`; records carry `line = i + 1`), producing records in file
order or the first error. -/
def parseTxnRows (currency filename : String) :
    Nat → List Row → Except LoadError (List DwightEntry)
  | _, [] => .ok []
  | i, row :: rows =>
    match parseTxnRow currency filename (i + 1) row with
    | .error e => .error e
    | .ok none => parseTxnRows currency filename (i + 1) rows
    | .ok (some entry) =>
      match parseTxnRows currency filename (i + 1) rows with
      | .error e => .error e
      | .ok rest => .ok (entry :: rest)

/-- Ordering of entries by date, the sort key of `entries.sort(key=lambda x: x.date)`. -/
def entryDateLe (a b : DwightEntry) : Prop :=
  Date.le a.date b.date

instance entryDateLeDec : DecidableRel entryDateLe := fun a b =>
  decidable_of_iff (Date.le a.date b.date) Iff.rfl

instance entryDateLeTotal : IsTotal DwightEntry entryDateLe :=
  ⟨by
    intro a b
    unfold entryDateLe Date.le
    omega⟩

instance entryDateLeTrans : IsTrans DwightEntry entryDateLe :=
  ⟨by
    intro a b c hab hbc
    unfold entryDateLe Date.le at hab hbc ⊢
    omega⟩

/-- Body of `load_transactions` before the exception wrapper: header
validation, the row loop, then `entries.reverse()` followed by the
stable ascending sort by date (Python `list.sort` is stable;
`List.insertionSort` with a total non-strict order is its extensional
equal). -/
def load_transactions_inner (filename : String) (file : CsvFile)
    (currency : String) : Except LoadError (List DwightEntry) :=
  if file.header = expected_field_names then
    match parseTxnRows currency filename 0 file.rows with
    | .error e => .error e
    | .ok entries => .ok (List.insertionSort entryDateLe entries.reverse)
  else .error (.fieldNameMismatch file.header expected_field_names)

/-- Model of `load_transactions`: the whole body runs inside
`try: ... except Exception: raise RuntimeError('CSV file has incorrect format', filename)`,
so every failure surfaces as `wrongFormat filename`.  (The
`os.path.abspath` call is filesystem state and is modelled as the
identity on the given path.)  The Python default for `currency` is
`'USD'`; see `load_transactions_default`. -/
def load_transactions (filename : String) (file : CsvFile)
    (currency : String) : Except LoadError (List DwightEntry) :=
  match load_transactions_inner filename file currency with
  | .ok entries => .ok entries
  | .error _ => .error (.wrongFormat filename)

/-- Application of `load_transactions` at its default currency argument `'USD'`, as
called by `DwightSource.__init__`. -/
def load_transactions_default (filename : String) (file : CsvFile) :
    Except LoadError (List DwightEntry) :=
  load_transactions filename file "USD"

/-- Processing of one row of the balances file, in source order: rows
whose description is not `'Total balance'` are skipped, then the date
is parsed (failure aborts), then the signed amount (failure aborts);
the currency comes from the row's own `Currency` column. -/
def parseBalRow (filename : String) (lineNo : Nat) (row : Row) :
    Except LoadError (Option RawBalance) :=
  if row.description ≠ "Total balance" then .ok none
  else
    match parseDate row.date with
    | none => .error (.invalidDate row.date)
    | some date =>
      match parseNumber row.zhanghaoWu with
      | none => .error (.badAmount row.zhanghaoWu)
      | some number =>
        .ok (some
          { account := "Zhuohan Li"
            date := date
            amount := { number := number, currency := row.currency }
            filename := filename
            line := lineNo })

/-- The row loop of `load_balances`. -/
def parseBalRows (filename : String) :
    Nat → List Row → Except LoadError (List RawBalance)
  | _, [] => .ok []
  | i, row :: rows =>
    match parseBalRow filename (i + 1) row with
    | .error e => .error e
    | .ok none => parseBalRows filename (i + 1) rows
    | .ok (some b) =>
      match parseBalRows filename (i + 1) rows with
      | .error e => .error e
      | .ok rest => .ok (b :: rest)

/-- Model of `load_balances`: header validation then the row loop.  Unlike
`load_transactions`, there is no enclosing `try`, so errors propagate
as raised (without the file path). -/
def load_balances (filename : String) (file : CsvFile) :
    Except LoadError (List RawBalance) :=
  if file.header = expected_field_names then parseBalRows filename 0 file.rows
  else .error (.fieldNameMismatch file.header expected_field_names)

/-- A metadata value attached to a posting or directive. -/
inductive MetaValue where
  | str (s : String)
  | date (d : Date)
deriving DecidableEq

/-- An ordered metadata dictionary (`collections.OrderedDict`). -/
abbrev MetaDict := List (String × MetaValue)

/-- A `beancount.core.data.Posting`, restricted to the fields this
source constructs or reads (`cost`, `price` and `flag` are always
`None` here and modelled with `Option Unit`). -/
structure Posting where
  account : String
  units : Amount
  cost : Option Unit
  price : Option Unit
  flag : Option Unit
  meta : Option MetaDict
deriving DecidableEq

/-- A `beancount.core.data.Transaction` (tags and links are the empty
set `EMPTY_SET`, modelled as lists). -/
structure Transaction where
  meta : Option MetaDict
  date : Date
  flag : String
  payee : Option String
  narration : String
  tags : List String
  links : List String
  postings : List Posting
deriving DecidableEq

/-- A `beancount.core.data.Balance` directive. -/
structure BalanceDirective where
  account : String
  date : Date
  meta : Option MetaDict
  amount : Amount
  tolerance : Option ℚ
  diff_amount : Option Amount
deriving DecidableEq

/-- A directive appearing in an import result. -/
inductive Entry where
  | txn (t : Transaction)
  | bal (b : BalanceDirective)
deriving DecidableEq

/-- The provenance dictionary produced by `get_info`. -/
structure Info where
  filetype : String
  filename : String
  line : Nat
deriving DecidableEq

/-- Model of `get_info`: `dict(type='text/csv', filename=..., line=...)`. -/
def get_info (filename : String) (line : Nat) : Info :=
  { filetype := "text/csv", filename := filename, line := line }

/-- An `ImportResult` (pending-entry proposal). -/
structure ImportResult where
  date : Date
  info : Info
  entries : List Entry
deriving DecidableEq

/-- The constant `beancount.core.flags.FLAG_OKAY`. -/
def FLAG_OKAY : String := "*"

/-- The constant `matching.FIXME_ACCOUNT`, the placeholder account used for the
unresolved counter-posting (shown as `Expenses:FIXME` in the module's
own docstring). -/
def FIXME_ACCOUNT : String := "Expenses:FIXME"

/-- The `MatchKey` tuple `(account, date, amount, description)`. -/
abbrev MatchKey := String × Date × Amount × String

/-- Model of `_get_key_from_posting` (the `entry` and `source_postings`
arguments are deleted unused). -/
def get_key_from_posting (entry : Transaction) (posting : Posting)
    (source_postings : List Posting) (source_desc : String)
    (posting_date : Date) : MatchKey :=
  (posting.account, posting_date, posting.units, source_desc)

/-- Model of `_get_key_from_csv_entry`. -/
def get_key_from_csv_entry (x : DwightEntry) : MatchKey :=
  (x.account, x.date, x.amount, x.source_desc)

/-- Model of `_make_import_result`: the two-posting draft transaction
synthesized for a pending CSV entry. -/
def make_import_result (dwight_entry : DwightEntry) : ImportResult :=
  { date := dwight_entry.date
    info := get_info dwight_entry.filename dwight_entry.line
    entries :=
      [Entry.txn
        { meta := none
          date := dwight_entry.date
          flag := FLAG_OKAY
          payee := none
          narration := dwight_entry.source_desc
          tags := []
          links := []
          postings :=
            [{ account := dwight_entry.account
               units := dwight_entry.amount
               cost := none
               price := none
               flag := none
               meta := some
                 [("source_desc", MetaValue.str dwight_entry.source_desc),
                  ("date", MetaValue.date dwight_entry.date)] },
             { account := FIXME_ACCOUNT
               units := Amount.neg dwight_entry.amount
               cost := none
               price := none
               flag := none
               meta := none }] }] }

/-- The balance-assertion proposal synthesized in `prepare` for a
converted balance record: dated one day after the snapshot date, both
on the result and on the contained `Balance` directive. -/
def makeBalanceResult (raw_balance : RawBalance) : ImportResult :=
  { date := nextDay raw_balance.date
    info := get_info raw_balance.filename raw_balance.line
    entries :=
      [Entry.bal
        { account := raw_balance.account
          date := nextDay raw_balance.date
          meta := none
          amount := raw_balance.amount
          tolerance := none
          diff_amount := none }] }

/-- The ledger as seen by `prepare`: the account-open directives with
their optional `dwight_id` metadata, and the match keys of the
existing postings (each a `LedgerPostingView` already projected to its
key, the posting date taken from posting metadata). -/
structure Journal where
  accounts : List (String × Option String)
  postingKeys : Multiset MatchKey

/-- Modelled from the spec: `description_based_source.get_account_mapping`
(§4.2 Account Mapper) builds the bidirectional association between
ledger accounts and their `dwight_id` metadata; accounts without the
metadata key are not mapped.  Represented as the list of
`(ledger account, dwight_id)` pairs (the spec's invariant makes it
bijective). -/
def get_account_mapping (accounts : List (String × Option String)) :
    List (String × String) :=
  accounts.filterMap (fun p => p.2.map (fun i => (p.1, i)))

/-- The `dwight_id_to_account` direction of the mapping. -/
def dwight_id_to_account (accounts : List (String × Option String))
    (dwightId : String) : Option String :=
  ((get_account_mapping accounts).find? (fun p => p.2 == dwightId)).map
    Prod.fst

/-- The `account_to_dwight_id.keys()` account set passed to the engine. -/
def mapped_account_set (accounts : List (String × Option String)) :
    List String :=
  (get_account_mapping accounts).map Prod.fst

/-- The `get_converted_dwight_entries` generator of `prepare`, generic
over the two namedtuple shapes: records whose external account id has
a ledger mapping are yielded with the account replaced
(`_replace(account=account)`); unmapped ids are added to the
`missing_accounts` set and the record is dropped. -/
def convertEntriesG {α : Type} (getA : α → String) (setA : α → String → α)
    (idTo : String → Option String) :
    List α → Finset String → List α × Finset String
  | [], missing => ([], missing)
  | e :: es, missing =>
    match idTo (getA e) with
    | none => convertEntriesG getA setA idTo es (insert (getA e) missing)
    | some account =>
      let r := convertEntriesG getA setA idTo es missing
      (setA e account :: r.1, r.2)

/-- The generator `get_converted_dwight_entries` on transaction entries. -/
def convertTxnEntries : (String → Option String) →
    List DwightEntry → Finset String → List DwightEntry × Finset String :=
  convertEntriesG (fun e => e.account) (fun e a => { e with account := a })

/-- The generator `get_converted_dwight_entries` on balance entries. -/
def convertBalEntries : (String → Option String) →
    List RawBalance → Finset String → List RawBalance × Finset String :=
  convertEntriesG (fun b => b.account) (fun b a => { b with account := a })

/-- Outcome of the reconciliation engine: the external records left
pending and the multiset of ledger posting keys left unmatched
(invalid). -/
structure ReconcileResult where
  pending : List DwightEntry
  invalid : Multiset MatchKey
deriving DecidableEq

/-- Modelled from the spec:
`description_based_source.get_pending_and_invalid_entries` (§4.4
Reconciliation Engine).  Ledger postings are grouped by key into a
multiset; external records are processed in the loader's output order;
a record whose key still has remaining multiplicity consumes one
occurrence and is already-matched, otherwise it is pending; ledger
keys never consumed are invalid. -/
def reconcile : List DwightEntry → Multiset MatchKey → ReconcileResult
  | [], journalKeys => ⟨[], journalKeys⟩
  | e :: es, journalKeys =>
    if get_key_from_csv_entry e ∈ journalKeys then
      reconcile es (journalKeys.erase (get_key_from_csv_entry e))
    else
      let r := reconcile es journalKeys
      ⟨e :: r.pending, r.invalid⟩

/-- Outcome of one run of `DwightSource.prepare`: the pending-entry
proposals, the unmatched (invalid) ledger keys, and the set of
external account ids warned about (each element produces exactly one
`'No Beancount account associated with Dwight account %r.'` warning). -/
structure PrepareResult where
  pending : List ImportResult
  invalid : Multiset MatchKey
  warnings : Finset String
deriving DecidableEq

/-- Model of `DwightSource.prepare`, in the source's control order: the
transaction entries are converted (collecting unmapped ids into the
missing set), reconciled against the ledger postings of mapped
accounts, pending entries are synthesized; then the warnings are
emitted from the missing set as collected so far; only after that is
the balance generator consumed (its unmapped ids enlarge the set too
late to be warned about) and each converted balance becomes a
proposal. -/
def prepare (journal : Journal) (dwight_entries : List DwightEntry)
    (balances : List RawBalance) : PrepareResult :=
  let idTo := dwight_id_to_account journal.accounts
  let ct := convertTxnEntries idTo dwight_entries ∅
  let relevantKeys :=
    journal.postingKeys.filter
      (fun k => k.1 ∈ mapped_account_set journal.accounts)
  let r := reconcile ct.1 relevantKeys
  let warnings := ct.2
  let cb := convertBalEntries idTo balances ct.2
  { pending := r.pending.map make_import_result ++ cb.1.map makeBalanceResult
    invalid := r.invalid
    warnings := warnings }

/-- Rewrite the `Zhuohan Li` column of every row of a file (the other
columns and the header are untouched).  Used to state that the loaders
never consult that column. -/
def mapZhuohanLi (f : Row → String) (file : CsvFile) : CsvFile :=
  { file with rows := file.rows.map (fun r => { r with zhuohanLi := f r }) }

/-!  ## Theorems  -/

/-- Entries with equal dates are related by the sort order. -/
theorem entryDateLe_of_eq {a b : DwightEntry} (h : a.date = b.date) :
    entryDateLe a b := by
  unfold entryDateLe Date.le
  rw [h]
  omega

/-- The function `orderedInsert` places an element in front of every element of
equal date already present: filtering at the inserted element's date
puts it first, and filtering at any other date is unchanged. -/
theorem filter_orderedInsert (d : Date) (a : DwightEntry) :
    ∀ l : List DwightEntry,
      (List.orderedInsert entryDateLe a l).filter
          (fun e => decide (e.date = d)) =
        if a.date = d then
          a :: l.filter (fun e => decide (e.date = d))
        else l.filter (fun e => decide (e.date = d))
  | [] => by
    by_cases had : a.date = d <;> simp [had]
  | b :: bs => by
    by_cases hr : entryDateLe a b
    · have hstep : List.orderedInsert entryDateLe a (b :: bs) =
          a :: b :: bs := by
        simp [List.orderedInsert, hr]
      rw [hstep]
      by_cases had : a.date = d <;> simp [List.filter_cons, had]
    · have hstep : List.orderedInsert entryDateLe a (b :: bs) =
          b :: List.orderedInsert entryDateLe a bs := by
        simp [List.orderedInsert, hr]
      rw [hstep]
      by_cases had : a.date = d
      · have hbd : ¬(b.date = d) := fun hbd =>
          hr (entryDateLe_of_eq (by rw [had, hbd]))
        simp [List.filter_cons, filter_orderedInsert d a bs, had, hbd]
      · by_cases hbd : b.date = d <;>
          simp [List.filter_cons, filter_orderedInsert d a bs, had, hbd]

/-- Stability of the sort: filtering the sorted list at any fixed date
gives the same sequence as filtering the input. -/
theorem filter_insertionSort (d : Date) :
    ∀ l : List DwightEntry,
      (List.insertionSort entryDateLe l).filter
          (fun e => decide (e.date = d)) =
        l.filter (fun e => decide (e.date = d))
  | [] => rfl
  | a :: l => by
    show (List.orderedInsert entryDateLe a
        (List.insertionSort entryDateLe l)).filter _ = _
    rw [filter_orderedInsert, filter_insertionSort d l]
    by_cases had : a.date = d <;> simp [List.filter_cons, had]

/-- Inversion of a successful `load_transactions`: the returned list
is the stable date-sort of the reversed file-order record list. -/
theorem load_transactions_ok {filename currency : String} {file : CsvFile}
    {rows0 entries : List DwightEntry}
    (h0 : parseTxnRows currency filename 0 file.rows = .ok rows0)
    (h : load_transactions filename file currency = .ok entries) :
    entries = List.insertionSort entryDateLe rows0.reverse := by
  unfold load_transactions load_transactions_inner at h
  by_cases hh : file.header = expected_field_names
  · rw [if_pos hh, h0] at h
    exact (Except.ok.inj h).symm
  · rw [if_neg hh] at h
    cases h

/-- Every record produced by the row loop of `load_transactions` has a
nonzero amount, carries the `currency` argument, and has the constant
account `"Zhuohan Li"`. -/
theorem parseTxnRows_mem {currency filename : String} :
    ∀ {i : Nat} {rows : List Row} {out : List DwightEntry},
      parseTxnRows currency filename i rows = .ok out →
      ∀ e ∈ out,
        e.amount.number ≠ 0 ∧ e.amount.currency = currency ∧
          e.account = "Zhuohan Li" := by
  intro i rows
  induction rows generalizing i with
  | nil =>
    intro out h e he
    unfold parseTxnRows at h
    cases h
    cases he
  | cons row rows ih =>
    intro out h e he
    unfold parseTxnRows at h
    cases hrow : parseTxnRow currency filename (i + 1) row with
    | error err => rw [hrow] at h; cases h
    | ok o =>
      rw [hrow] at h
      cases o with
      | none => exact ih h e he
      | some entry =>
        cases hrest : parseTxnRows currency filename (i + 1) rows with
        | error err => rw [hrest] at h; cases h
        | ok rest =>
          rw [hrest] at h
          obtain rfl := Except.ok.inj h
          rw [List.mem_cons] at he
          rcases he with rfl | he
          · unfold parseTxnRow at hrow
            cases hnum : parseNumber row.zhanghaoWu with
            | none => rw [hnum] at hrow; cases hrow
            | some number =>
              simp only [hnum] at hrow
              by_cases hz : number = 0 ∨ row.description = "Total balance"
              · rw [if_pos hz] at hrow; cases hrow
              · rw [if_neg hz] at hrow
                cases hdate : parseDate row.date with
                | none => rw [hdate] at hrow; cases hrow
                | some date =>
                  rw [hdate] at hrow
                  cases hrow
                  push_neg at hz
                  exact ⟨hz.1, rfl, rfl⟩
          · exact ih hrest e he

/-- Membership in a successful `load_transactions` result coincides
with membership in the file-order record list. -/
theorem mem_load_transactions {filename currency : String} {file : CsvFile}
    {rows0 entries : List DwightEntry}
    (h0 : parseTxnRows currency filename 0 file.rows = .ok rows0)
    (h : load_transactions filename file currency = .ok entries) :
    ∀ e, e ∈ entries ↔ e ∈ rows0 := by
  intro e
  rw [load_transactions_ok h0 h,
    (List.perm_insertionSort entryDateLe rows0.reverse).mem_iff,
    List.mem_reverse]

/-- Every record produced by the row loop of `load_balances` has the
constant account `"Zhuohan Li"` and takes its currency from the
`Currency` column of a `'Total balance'` row of the file. -/
theorem parseBalRows_mem {filename : String} :
    ∀ {i : Nat} {rows : List Row} {out : List RawBalance},
      parseBalRows filename i rows = .ok out →
      ∀ b ∈ out,
        b.account = "Zhuohan Li" ∧
          ∃ r ∈ rows, b.amount.currency = r.currency ∧
            r.description = "Total balance" := by
  intro i rows
  induction rows generalizing i with
  | nil =>
    intro out h b hb
    unfold parseBalRows at h
    cases h
    cases hb
  | cons row rows ih =>
    intro out h b hb
    unfold parseBalRows at h
    cases hrow : parseBalRow filename (i + 1) row with
    | error err => rw [hrow] at h; cases h
    | ok o =>
      rw [hrow] at h
      cases o with
      | none =>
        rcases ih h b hb with ⟨h1, r, hr, h2⟩
        exact ⟨h1, r, List.mem_cons_of_mem _ hr, h2⟩
      | some bal =>
        cases hrest : parseBalRows filename (i + 1) rows with
        | error err => rw [hrest] at h; cases h
        | ok rest =>
          rw [hrest] at h
          obtain rfl := Except.ok.inj h
          rw [List.mem_cons] at hb
          rcases hb with rfl | hb
          · unfold parseBalRow at hrow
            by_cases hd : row.description ≠ "Total balance"
            · rw [if_pos hd] at hrow; cases hrow
            · rw [if_neg hd] at hrow
              push_neg at hd
              cases hdate : parseDate row.date with
              | none => rw [hdate] at hrow; cases hrow
              | some date =>
                simp only [hdate] at hrow
                cases hnum : parseNumber row.zhanghaoWu with
                | none => rw [hnum] at hrow; cases hrow
                | some number =>
                  rw [hnum] at hrow
                  cases hrow
                  exact ⟨rfl, row, List.mem_cons_self _ _, rfl, hd⟩
          · rcases ih hrest b hb with ⟨h1, r, hr, h2⟩
            exact ⟨h1, r, List.mem_cons_of_mem _ hr, h2⟩

/-- Errors escaping the row loop of `load_balances` never carry the
file path. -/
theorem parseBalRows_error {filename : String} :
    ∀ {i : Nat} {rows : List Row} {err : LoadError},
      parseBalRows filename i rows = .error err →
      errorFilename err = none := by
  intro i rows
  induction rows generalizing i with
  | nil =>
    intro err h
    unfold parseBalRows at h
    cases h
  | cons row rows ih =>
    intro err h
    unfold parseBalRows at h
    cases hrow : parseBalRow filename (i + 1) row with
    | error e =>
      rw [hrow] at h
      cases h
      unfold parseBalRow at hrow
      by_cases hd : row.description ≠ "Total balance"
      · rw [if_pos hd] at hrow; cases hrow
      · rw [if_neg hd] at hrow
        cases hdate : parseDate row.date with
        | none =>
          rw [hdate] at hrow
          cases hrow
          rfl
        | some date =>
          rw [hdate] at hrow
          cases hnum : parseNumber row.zhanghaoWu with
          | none =>
            rw [hnum] at hrow
            cases hrow
            rfl
          | some number => rw [hnum] at hrow; cases hrow
    | ok o =>
      rw [hrow] at h
      cases o with
      | none => exact ih h
      | some bal =>
        cases hrest : parseBalRows filename (i + 1) rows with
        | error e =>
          rw [hrest] at h
          cases h
          exact ih hrest
        | ok rest => rw [hrest] at h; cases h

/-- Any failure of `load_transactions` surfaces as the wrapper error
`wrongFormat filename` (which carries the file path). -/
theorem load_transactions_error {filename currency : String}
    {file : CsvFile} {err : LoadError}
    (h : load_transactions filename file currency = .error err) :
    err = .wrongFormat filename := by
  unfold load_transactions at h
  cases hinner : load_transactions_inner filename file currency with
  | ok entries => rw [hinner] at h; cases h
  | error e =>
    rw [hinner] at h
    exact (Except.error.inj h).symm

/-- Any failure of `load_balances` surfaces without the file path. -/
theorem load_balances_error {filename : String} {file : CsvFile}
    {err : LoadError}
    (h : load_balances filename file = .error err) :
    errorFilename err = none := by
  unfold load_balances at h
  by_cases hh : file.header = expected_field_names
  · rw [if_pos hh] at h
    exact parseBalRows_error h
  · rw [if_neg hh] at h
    obtain rfl := Except.error.inj h
    rfl

/-- The records yielded by the conversion generator are exactly the
input records whose external account id resolves, with the account
replaced by the resolved ledger account; the missing-accounts set does
not influence them. -/
theorem convertEntriesG_fst {α : Type} (getA : α → String)
    (setA : α → String → α) (idTo : String → Option String) :
    ∀ (l : List α) (m : Finset String),
      (convertEntriesG getA setA idTo l m).1 =
        l.filterMap (fun e => (idTo (getA e)).map (setA e)) := by
  intro l
  induction l with
  | nil => intro m; rfl
  | cons e es ih =>
    intro m
    unfold convertEntriesG
    cases h : idTo (getA e) with
    | none => simp [h, List.filterMap_cons, ih]
    | some account => simp [h, List.filterMap_cons, ih]

/-- The missing-accounts set after the conversion generator runs is
the initial set together with the external ids of the unmapped input
records. -/
theorem convertEntriesG_snd {α : Type} (getA : α → String)
    (setA : α → String → α) (idTo : String → Option String) :
    ∀ (l : List α) (m : Finset String),
      (convertEntriesG getA setA idTo l m).2 =
        m ∪ ((l.filter (fun e => (idTo (getA e)).isNone)).map getA).toFinset := by
  intro l
  induction l with
  | nil => intro m; simp [convertEntriesG]
  | cons e es ih =>
    intro m
    unfold convertEntriesG
    cases h : idTo (getA e) with
    | none =>
      rw [ih]
      simp [List.filter_cons, h, Finset.insert_union, Finset.union_insert]
    | some account =>
      simp only []
      rw [ih]
      simp [List.filter_cons, h]

/-- The engine's pending records form a sublist of its input records
(ledger-side keys never appear among them). -/
theorem reconcile_pending_sublist :
    ∀ (l : List DwightEntry) (jk : Multiset MatchKey),
      (reconcile l jk).pending.Sublist l := by
  intro l
  induction l with
  | nil => intro jk; simp [reconcile]
  | cons e es ih =>
    intro jk
    by_cases h : get_key_from_csv_entry e ∈ jk
    · simp only [reconcile, if_pos h]
      exact (ih _).cons e
    · simp only [reconcile, if_neg h]
      exact (ih jk).cons₂ e

/-- The engine's invalid keys are a sub-multiset of the ledger keys it
was given (external records are never classified invalid). -/
theorem reconcile_invalid_le :
    ∀ (l : List DwightEntry) (jk : Multiset MatchKey),
      (reconcile l jk).invalid ≤ jk := by
  intro l
  induction l with
  | nil => intro jk; simp [reconcile]
  | cons e es ih =>
    intro jk
    by_cases h : get_key_from_csv_entry e ∈ jk
    · simp only [reconcile, if_pos h]
      exact le_trans (ih _) (Multiset.erase_le _ _)
    · simp only [reconcile, if_neg h]
      exact ih jk

/-- Claim C1, amended (corrected): rerunning reconciliation against
the *same unmodified* ledger reproduces the first run's result rather
than an empty one; the empty-on-rerun behaviour holds once the first
run's pendingNew drafts are accepted into the ledger.  Precisely:
extending the ledger keys by the keys of the first run's pending
records makes the second run's pendingNew empty and its
invalidExisting equal to the first run's (in particular both are empty
whenever the first run's invalidExisting was empty). -/
theorem claim_C1_amended_idempotent_after_accept :
    ∀ (l : List DwightEntry) (jk : Multiset MatchKey),
      reconcile l
          (jk + (↑((reconcile l jk).pending.map get_key_from_csv_entry) :
            Multiset MatchKey)) =
        ⟨[], (reconcile l jk).invalid⟩ := by
  intro l
  induction l with
  | nil => intro jk; simp [reconcile]
  | cons e es ih =>
    intro jk
    by_cases h : get_key_from_csv_entry e ∈ jk
    · have h1 : reconcile (e :: es) jk =
          reconcile es (jk.erase (get_key_from_csv_entry e)) := by
        simp only [reconcile, if_pos h]
      rw [h1]
      have hmem : get_key_from_csv_entry e ∈
          jk + (↑((reconcile es
            (jk.erase (get_key_from_csv_entry e))).pending.map
              get_key_from_csv_entry) : Multiset MatchKey) :=
        Multiset.mem_add.mpr (Or.inl h)
      have h2 : reconcile (e :: es)
            (jk + (↑((reconcile es
              (jk.erase (get_key_from_csv_entry e))).pending.map
                get_key_from_csv_entry) : Multiset MatchKey)) =
          reconcile es
            ((jk + (↑((reconcile es
              (jk.erase (get_key_from_csv_entry e))).pending.map
                get_key_from_csv_entry) : Multiset MatchKey)).erase
              (get_key_from_csv_entry e)) := by
        simp only [reconcile, if_pos hmem]
      rw [h2, Multiset.erase_add_left_pos _ h]
      exact ih (jk.erase (get_key_from_csv_entry e))
    · have h1 : reconcile (e :: es) jk =
          ⟨e :: (reconcile es jk).pending, (reconcile es jk).invalid⟩ := by
        simp only [reconcile, if_neg h]
      rw [h1]
      dsimp only
      rw [List.map_cons, ← Multiset.cons_coe]
      have hmem : get_key_from_csv_entry e ∈
          jk + (get_key_from_csv_entry e ::ₘ
            (↑((reconcile es jk).pending.map get_key_from_csv_entry) :
              Multiset MatchKey)) :=
        Multiset.mem_add.mpr (Or.inr (Multiset.mem_cons_self _ _))
      have h2 : reconcile (e :: es)
            (jk + (get_key_from_csv_entry e ::ₘ
              (↑((reconcile es jk).pending.map get_key_from_csv_entry) :
                Multiset MatchKey))) =
          reconcile es
            ((jk + (get_key_from_csv_entry e ::ₘ
              (↑((reconcile es jk).pending.map get_key_from_csv_entry) :
                Multiset MatchKey))).erase (get_key_from_csv_entry e)) := by
        simp only [reconcile, if_pos hmem]
      rw [h2, Multiset.erase_add_right_pos _ (Multiset.mem_cons_self _ _),
        Multiset.erase_cons_head]
      exact ih jk

/-- Claim C1, counterexample: `prepare` is a pure function, so running
it twice on the same export and the same unmodified ledger returns the
same result both times; here one mapped transaction record over an
empty ledger yields a nonempty `pendingNew` on the second run as well,
refuting the claim that the second run's `pendingNew` is empty. -/
theorem claim_C1_counterexample :
    (prepare
        { accounts := [("Assets:Checking", some "Zhuohan Li")]
          postingKeys := 0 }
        [{ account := "Zhuohan Li"
           date := ⟨2016, 8, 10⟩
           amount := { number := mkRat (-245) 100, currency := "USD" }
           source_desc := "STARBUCKS STORE 12345"
           filename := "dwight.csv"
           line := 1 }]
        []).pending ≠ [] := by
  decide

/-- Claim C5 (confirmed): the two key extractors agree — whenever a
ledger posting view and a CSV entry have pairwise equal account, date,
amount and description fields, `_get_key_from_posting` and
`_get_key_from_csv_entry` return equal `MatchKey` tuples. -/
theorem claim_C5_key_agreement (t : Transaction) (p : Posting)
    (sp : List Posting) (sd : String) (pd : Date) (e : DwightEntry)
    (h1 : p.account = e.account) (h2 : pd = e.date)
    (h3 : p.units = e.amount) (h4 : sd = e.source_desc) :
    get_key_from_posting t p sp sd pd = get_key_from_csv_entry e := by
  unfold get_key_from_posting get_key_from_csv_entry
  rw [h1, h2, h3, h4]

/-- Witness for claim C5 at concrete values. -/
theorem claim_C5_witness :
    get_key_from_posting
        { meta := none, date := ⟨2016, 8, 10⟩, flag := "*", payee := none
          narration := "", tags := [], links := [], postings := [] }
        { account := "Liabilities:Credit-Card"
          units := { number := mkRat (-245) 100, currency := "USD" }
          cost := none, price := none, flag := none, meta := none }
        [] "STARBUCKS STORE 12345" ⟨2016, 8, 10⟩ =
      get_key_from_csv_entry
        { account := "Liabilities:Credit-Card"
          date := ⟨2016, 8, 10⟩
          amount := { number := mkRat (-245) 100, currency := "USD" }
          source_desc := "STARBUCKS STORE 12345"
          filename := "dwight.csv"
          line := 3 } :=
  claim_C5_key_agreement _ _ _ _ _ _ rfl rfl rfl rfl

/-- Claim C7 (confirmed): the draft synthesized for a pending record
is a transaction with exactly two postings — the first on the record's
(resolved) account with the record's signed amount and metadata
holding exactly the `source_desc` and `date`, the second on the FIXME
placeholder account with the negated amount and no metadata — and the
two posting amounts sum to zero. -/
theorem claim_C7_make_import_result (e : DwightEntry) :
    make_import_result e =
      { date := e.date
        info := { filetype := "text/csv", filename := e.filename
                  line := e.line }
        entries :=
          [Entry.txn
            { meta := none
              date := e.date
              flag := FLAG_OKAY
              payee := none
              narration := e.source_desc
              tags := []
              links := []
              postings :=
                [{ account := e.account
                   units := e.amount
                   cost := none
                   price := none
                   flag := none
                   meta := some
                     [("source_desc", MetaValue.str e.source_desc),
                      ("date", MetaValue.date e.date)] },
                 { account := FIXME_ACCOUNT
                   units := Amount.neg e.amount
                   cost := none
                   price := none
                   flag := none
                   meta := none }] }] } ∧
    e.amount.number + (Amount.neg e.amount).number = 0 := by
  refine ⟨rfl, ?_⟩
  simp [Amount.neg]

/-- Claim C2 (confirmed): a successful `load_transactions` returns a
list sorted ascending by date, and the records of any fixed date
appear in the reverse of their order in the file (`rows0` is the
file-order record list produced by the row loop). -/
theorem claim_C2_output_ordering (filename currency : String)
    (file : CsvFile) (rows0 entries : List DwightEntry)
    (h0 : parseTxnRows currency filename 0 file.rows = .ok rows0)
    (h : load_transactions filename file currency = .ok entries) :
    List.Sorted entryDateLe entries ∧
      ∀ d : Date,
        entries.filter (fun e => decide (e.date = d)) =
          (rows0.filter (fun e => decide (e.date = d))).reverse := by
  have he := load_transactions_ok h0 h
  subst he
  constructor
  · exact List.sorted_insertionSort entryDateLe _
  · intro d
    rw [filter_insertionSort, List.filter_reverse]

/-- Witness for claim C2: a file with two same-date rows loads into
the date-sorted list with the two records in reverse file order. -/
theorem claim_C2_witness :
    List.Sorted entryDateLe
        [{ account := "Zhuohan Li", date := ⟨2016, 8, 10⟩
           amount := { number := 5, currency := "USD" }
           source_desc := "B", filename := "f", line := 2 },
         { account := "Zhuohan Li", date := ⟨2016, 8, 10⟩
           amount := { number := 5, currency := "USD" }
           source_desc := "A", filename := "f", line := 1 }] ∧
      ([{ account := "Zhuohan Li", date := ⟨2016, 8, 10⟩
          amount := { number := 5, currency := "USD" }
          source_desc := "B", filename := "f", line := 2 },
        { account := "Zhuohan Li", date := ⟨2016, 8, 10⟩
          amount := { number := 5, currency := "USD" }
          source_desc := "A", filename := "f", line := 1 }] :
            List DwightEntry).filter
          (fun e => decide (e.date = ⟨2016, 8, 10⟩)) =
        (([{ account := "Zhuohan Li", date := ⟨2016, 8, 10⟩
             amount := { number := 5, currency := "USD" }
             source_desc := "A", filename := "f", line := 1 },
           { account := "Zhuohan Li", date := ⟨2016, 8, 10⟩
             amount := { number := 5, currency := "USD" }
             source_desc := "B", filename := "f", line := 2 }] :
              List DwightEntry).filter
            (fun e => decide (e.date = ⟨2016, 8, 10⟩))).reverse := by
  have hmain := claim_C2_output_ordering "f" "USD"
    { header := expected_field_names
      rows := [⟨"2016-08-10", "A", "", "", "USD", "", "5"⟩,
               ⟨"2016-08-10", "B", "", "", "USD", "", "5"⟩] }
    [{ account := "Zhuohan Li", date := ⟨2016, 8, 10⟩
       amount := { number := 5, currency := "USD" }
       source_desc := "A", filename := "f", line := 1 },
     { account := "Zhuohan Li", date := ⟨2016, 8, 10⟩
       amount := { number := 5, currency := "USD" }
       source_desc := "B", filename := "f", line := 2 }]
    [{ account := "Zhuohan Li", date := ⟨2016, 8, 10⟩
       amount := { number := 5, currency := "USD" }
       source_desc := "B", filename := "f", line := 2 },
     { account := "Zhuohan Li", date := ⟨2016, 8, 10⟩
       amount := { number := 5, currency := "USD" }
       source_desc := "A", filename := "f", line := 1 }]
    (by decide) (by decide)
  exact ⟨hmain.1, hmain.2 ⟨2016, 8, 10⟩⟩

/-- Claim C3, counterexample: a `'Total balance'` row whose amount
parses to exactly zero *does* appear in the `load_balances` output
(the zero-amount filter exists only in `load_transactions`), refuting
the claim for the balance record sequence. -/
theorem claim_C3_counterexample :
    parseNumber "0.00" = some 0 ∧
      load_balances "dwight.csv"
          { header := expected_field_names
            rows := [{ date := "2016-08-10"
                       description := "Total balance"
                       category := "", cost := "", currency := "USD"
                       zhuohanLi := "", zhanghaoWu := "0.00" }] } =
        .ok [{ account := "Zhuohan Li", date := ⟨2016, 8, 10⟩
               amount := { number := 0, currency := "USD" }
               filename := "dwight.csv", line := 1 }] := by
  exact ⟨by decide, by decide⟩

/-- Claim C3, amended (corrected): a row whose amount parses to
exactly zero never appears in the `load_transactions` record sequence,
regardless of its description; `load_balances`, however, filters only
on the `'Total balance'` sentinel and does include zero-amount balance
rows. -/
theorem claim_C3_amended_zero_filtering (filename currency : String)
    (file : CsvFile) (entries : List DwightEntry)
    (h : load_transactions filename file currency = .ok entries) :
    ∀ e ∈ entries, e.amount.number ≠ 0 := by
  cases h0 : parseTxnRows currency filename 0 file.rows with
  | error err =>
    unfold load_transactions load_transactions_inner at h
    by_cases hh : file.header = expected_field_names
    · rw [if_pos hh, h0] at h; cases h
    · rw [if_neg hh] at h; cases h
  | ok rows0 =>
    intro e he
    exact (parseTxnRows_mem h0 e ((mem_load_transactions h0 h e).mp he)).1

/-- Witness for the amended claim C3 at a concrete loaded file. -/
theorem claim_C3_witness :
    ({ account := "Zhuohan Li", date := ⟨2016, 8, 10⟩
       amount := { number := 5, currency := "USD" }
       source_desc := "A", filename := "f", line := 1 } :
        DwightEntry).amount.number ≠ 0 :=
  claim_C3_amended_zero_filtering "f" "USD"
    { header := expected_field_names
      rows := [⟨"2016-08-10", "A", "", "", "USD", "", "5"⟩,
               ⟨"2016-08-10", "Z", "", "", "USD", "", "0.00"⟩] }
    [{ account := "Zhuohan Li", date := ⟨2016, 8, 10⟩
       amount := { number := 5, currency := "USD" }
       source_desc := "A", filename := "f", line := 1 }]
    (by decide) _ (by decide)

/-- Claim C4, counterexample: a bad date in the balances file makes
`load_balances` fail with the bare `'Invalid date'` error, which does
not carry the file path, refuting the claim that both loaders wrap
failures in a `FormatError` carrying the file path. -/
theorem claim_C4_counterexample :
    load_balances "dwight.csv"
        { header := expected_field_names
          rows := [{ date := "bad", description := "Total balance"
                     category := "", cost := "", currency := "USD"
                     zhuohanLi := "", zhanghaoWu := "5" }] } =
      .error (.invalidDate "bad") ∧
    errorFilename (.invalidDate "bad") = none := by
  exact ⟨by decide, rfl⟩

/-- Claim C4, amended (corrected): both loaders are atomic (they
return either a complete record list or a single error, a property the
`Except`-valued embedding has by construction), and every
`load_transactions` failure is the wrapper error carrying the file
path; `load_balances` failures, however, surface as the underlying
error — header mismatch, invalid date, or malformed amount — which
carries no file path. -/
theorem claim_C4_amended_atomic_errors :
    (∀ (filename currency : String) (file : CsvFile) (err : LoadError),
        load_transactions filename file currency = .error err →
          err = LoadError.wrongFormat filename) ∧
      (∀ (filename : String) (file : CsvFile) (err : LoadError),
        load_balances filename file = .error err →
          errorFilename err = none) :=
  ⟨fun _ _ _ _ h => load_transactions_error h,
   fun _ _ _ h => load_balances_error h⟩

/-- Witness for the amended claim C4 at concrete failing files. -/
theorem claim_C4_witness :
    LoadError.wrongFormat "dwight.csv" =
        LoadError.wrongFormat "dwight.csv" ∧
      errorFilename (LoadError.invalidDate "bad") = none :=
  ⟨claim_C4_amended_atomic_errors.1 "dwight.csv" "USD"
      { header := expected_field_names
        rows := [⟨"bad", "A", "", "", "USD", "", "5"⟩] }
      (.wrongFormat "dwight.csv") (by decide),
   claim_C4_amended_atomic_errors.2 "dwight.csv"
      { header := expected_field_names
        rows := [⟨"bad", "Total balance", "", "", "USD", "", "5"⟩] }
      (.invalidDate "bad") (by decide)⟩

/-- Claim C6, counterexample: an external account id that is unmapped
and occurs only among balance records is excluded from reconciliation
(no pending entry is produced) but receives *zero* warnings, because
`prepare` emits the warnings before the lazy balance generator is
consumed — refuting "exactly one warning per distinct unmapped id". -/
theorem claim_C6_counterexample :
    dwight_id_to_account ([] : List (String × Option String)) "X" = none ∧
      (prepare { accounts := [], postingKeys := 0 } []
          [{ account := "X", date := ⟨2016, 8, 10⟩
             amount := { number := 5, currency := "USD" }
             filename := "f", line := 1 }]).warnings = ∅ ∧
      (prepare { accounts := [], postingKeys := 0 } []
          [{ account := "X", date := ⟨2016, 8, 10⟩
             amount := { number := 5, currency := "USD" }
             filename := "f", line := 1 }]).pending = [] := by
  exact ⟨rfl, by decide, by decide⟩

/-- Claim C6, amended (corrected): unmapped records — transaction
*and* balance — are excluded from reconciliation: the conversion
generator drops exactly the records whose account id does not resolve,
`prepare`'s whole pending list is built only from the resolved
transaction records (through the engine) and the resolved balance
records, the engine's pending list is a sublist of its input, and its
invalid keys are a sub-multiset of the ledger keys.  The warning set
is exactly the set of distinct unmapped ids *among the transaction
records*; ids unmapped only among balance records are collected after
the warnings have already been emitted and produce no warning. -/
theorem claim_C6_amended_unmapped_handling :
    (∀ (journal : Journal) (txns : List DwightEntry)
        (bals : List RawBalance),
      (prepare journal txns bals).warnings =
        ((txns.filter (fun e =>
            (dwight_id_to_account journal.accounts e.account).isNone)).map
          (fun e => e.account)).toFinset) ∧
      (∀ (idTo : String → Option String) (l : List DwightEntry)
          (m : Finset String),
        (convertTxnEntries idTo l m).1 =
          l.filterMap (fun e =>
            (idTo e.account).map (fun a => { e with account := a }))) ∧
      (∀ (idTo : String → Option String) (l : List RawBalance)
          (m : Finset String),
        (convertBalEntries idTo l m).1 =
          l.filterMap (fun b =>
            (idTo b.account).map (fun a => { b with account := a }))) ∧
      (∀ (journal : Journal) (txns : List DwightEntry)
          (bals : List RawBalance),
        (prepare journal txns bals).pending =
          (reconcile
              (txns.filterMap (fun e =>
                (dwight_id_to_account journal.accounts e.account).map
                  (fun a => { e with account := a })))
              (journal.postingKeys.filter
                (fun k => k.1 ∈ mapped_account_set
                  journal.accounts))).pending.map make_import_result ++
            (bals.filterMap (fun b =>
              (dwight_id_to_account journal.accounts b.account).map
                (fun a => { b with account := a }))).map
              makeBalanceResult) ∧
      (∀ (l : List DwightEntry) (jk : Multiset MatchKey),
        (reconcile l jk).pending.Sublist l) ∧
      (∀ (l : List DwightEntry) (jk : Multiset MatchKey),
        (reconcile l jk).invalid ≤ jk) := by
  refine ⟨?_, ?_, ?_, ?_, reconcile_pending_sublist, reconcile_invalid_le⟩
  · intro journal txns bals
    unfold prepare
    dsimp only
    unfold convertTxnEntries
    rw [convertEntriesG_snd]
    rw [Finset.empty_union]
  · intro idTo l m
    unfold convertTxnEntries
    rw [convertEntriesG_fst]
  · intro idTo l m
    unfold convertBalEntries
    rw [convertEntriesG_fst]
  · intro journal txns bals
    unfold prepare
    dsimp only
    unfold convertTxnEntries convertBalEntries
    simp only [convertEntriesG_fst]

/-- Claim C8 (confirmed): every converted balance record of snapshot
date `D` yields a proposal in `prepare`'s pending list whose date and
whose contained balance assertion's date are both exactly one calendar
day after `D`. -/
theorem claim_C8_balance_date_shift (journal : Journal)
    (txns : List DwightEntry) (bals : List RawBalance) (b : RawBalance)
    (hb : b ∈ (convertBalEntries (dwight_id_to_account journal.accounts)
        bals ∅).1) :
    makeBalanceResult b ∈ (prepare journal txns bals).pending ∧
      (makeBalanceResult b).date = nextDay b.date ∧
      (makeBalanceResult b).entries =
        [Entry.bal
          { account := b.account, date := nextDay b.date, meta := none
            amount := b.amount, tolerance := none, diff_amount := none }] := by
  refine ⟨?_, rfl, rfl⟩
  unfold prepare
  dsimp only
  apply List.mem_append_right
  apply List.mem_map_of_mem
  have h1 : (convertBalEntries (dwight_id_to_account journal.accounts) bals
        ((convertTxnEntries (dwight_id_to_account journal.accounts)
          txns ∅).2)).1 =
      (convertBalEntries (dwight_id_to_account journal.accounts)
        bals ∅).1 := by
    unfold convertBalEntries
    rw [convertEntriesG_fst, convertEntriesG_fst]
  rw [h1]
  exact hb

/-- Witness for claim C8: the spec's example — a balance snapshot
dated 2016-08-10 synthesizes a proposal dated 2016-08-11. -/
theorem claim_C8_witness :
    makeBalanceResult
        { account := "Assets:Checking", date := ⟨2016, 8, 10⟩
          amount := { number := 5, currency := "USD" }
          filename := "f", line := 1 } ∈
      (prepare
          { accounts := [("Assets:Checking", some "Zhuohan Li")]
            postingKeys := 0 }
          []
          [{ account := "Zhuohan Li", date := ⟨2016, 8, 10⟩
             amount := { number := 5, currency := "USD" }
             filename := "f", line := 1 }]).pending ∧
      (makeBalanceResult
        { account := "Assets:Checking", date := ⟨2016, 8, 10⟩
          amount := { number := 5, currency := "USD" }
          filename := "f", line := 1 }).date =
        nextDay ⟨2016, 8, 10⟩ ∧
      nextDay ⟨2016, 8, 10⟩ = ⟨2016, 8, 11⟩ := by
  have hmain := claim_C8_balance_date_shift
    { accounts := [("Assets:Checking", some "Zhuohan Li")]
      postingKeys := 0 }
    []
    [{ account := "Zhuohan Li", date := ⟨2016, 8, 10⟩
       amount := { number := 5, currency := "USD" }
       filename := "f", line := 1 }]
    { account := "Assets:Checking", date := ⟨2016, 8, 10⟩
      amount := { number := 5, currency := "USD" }
      filename := "f", line := 1 }
    (by decide)
  exact ⟨hmain.1, hmain.2.1, by decide⟩

/-- Provenance of the balance row loop: every produced record's `line`
field exceeds the running index, and the row *at that recorded line*
is the record's own source row — it is a `'Total balance'` row and the
record's currency is that row's `Currency` column value. -/
theorem parseBalRows_line {filename : String} :
    ∀ {i : Nat} {rows : List Row} {out : List RawBalance},
      parseBalRows filename i rows = .ok out →
      ∀ b ∈ out,
        i < b.line ∧
          (rows.get? (b.line - i - 1)).map Row.currency =
            some b.amount.currency ∧
          (rows.get? (b.line - i - 1)).map Row.description =
            some "Total balance" := by
  intro i rows
  induction rows generalizing i with
  | nil =>
    intro out h b hb
    unfold parseBalRows at h
    cases h
    cases hb
  | cons row rows ih =>
    intro out h b hb
    unfold parseBalRows at h
    cases hrow : parseBalRow filename (i + 1) row with
    | error err => rw [hrow] at h; cases h
    | ok o =>
      rw [hrow] at h
      cases o with
      | none =>
        rcases ih h b hb with ⟨hlt, hcur, hdesc⟩
        have hidx : b.line - i - 1 = (b.line - (i + 1) - 1) + 1 := by
          omega
        rw [hidx]
        exact ⟨by omega, by rw [List.get?_cons_succ]; exact hcur,
          by rw [List.get?_cons_succ]; exact hdesc⟩
      | some bal =>
        cases hrest : parseBalRows filename (i + 1) rows with
        | error err => rw [hrest] at h; cases h
        | ok rest =>
          rw [hrest] at h
          obtain rfl := Except.ok.inj h
          rw [List.mem_cons] at hb
          rcases hb with rfl | hb
          · unfold parseBalRow at hrow
            by_cases hd : row.description ≠ "Total balance"
            · rw [if_pos hd] at hrow; cases hrow
            · rw [if_neg hd] at hrow
              push_neg at hd
              cases hdate : parseDate row.date with
              | none => rw [hdate] at hrow; cases hrow
              | some date =>
                simp only [hdate] at hrow
                cases hnum : parseNumber row.zhanghaoWu with
                | none => rw [hnum] at hrow; cases hrow
                | some number =>
                  rw [hnum] at hrow
                  cases hrow
                  have hidx : i + 1 - i - 1 = 0 := by omega
                  refine ⟨by dsimp only; omega, ?_, ?_⟩
                  · dsimp only
                    rw [hidx, List.get?_cons_zero]
                    rfl
                  · dsimp only
                    rw [hidx, List.get?_cons_zero]
                    simp [hd]
          · rcases ih hrest b hb with ⟨hlt, hcur, hdesc⟩
            have hidx : b.line - i - 1 = (b.line - (i + 1) - 1) + 1 := by
              omega
            rw [hidx]
            exact ⟨by omega, by rw [List.get?_cons_succ]; exact hcur,
              by rw [List.get?_cons_succ]; exact hdesc⟩

/-- Claim C9, counterexample: a balance row whose `Currency` column is
`"EUR"` loads into a record carrying currency `"EUR"`, not the
configured/default fixed currency `"USD"` — `load_balances` takes the
currency from the row, refuting the claim for the balance stream. -/
theorem claim_C9_counterexample :
    load_balances "dwight.csv"
        { header := expected_field_names
          rows := [{ date := "2016-08-10", description := "Total balance"
                     category := "", cost := "", currency := "EUR"
                     zhuohanLi := "", zhanghaoWu := "5" }] } =
      .ok [{ account := "Zhuohan Li", date := ⟨2016, 8, 10⟩
             amount := { number := 5, currency := "EUR" }
             filename := "dwight.csv", line := 1 }] ∧
    ("EUR" : String) ≠ "USD" := by
  exact ⟨by decide, by decide⟩

/-- Claim C9, amended (corrected): every record of a successful
`load_transactions` carries the configured `currency` argument (whose
default, used by `DwightSource`, is `"USD"`); every record of a
successful `load_balances` instead carries the `Currency` column value
of its *own* source row — the `'Total balance'` row at the record's
recorded line number. -/
theorem claim_C9_amended_currency :
    (∀ (filename currency : String) (file : CsvFile)
        (entries : List DwightEntry),
      load_transactions filename file currency = .ok entries →
        ∀ e ∈ entries, e.amount.currency = currency) ∧
      (∀ (filename : String) (file : CsvFile),
        load_transactions_default filename file =
          load_transactions filename file "USD") ∧
      (∀ (filename : String) (file : CsvFile) (bals : List RawBalance),
        load_balances filename file = .ok bals →
          ∀ b ∈ bals,
            (file.rows.get? (b.line - 1)).map Row.currency =
                some b.amount.currency ∧
              (file.rows.get? (b.line - 1)).map Row.description =
                some "Total balance") := by
  refine ⟨?_, fun _ _ => rfl, ?_⟩
  · intro filename currency file entries h
    cases h0 : parseTxnRows currency filename 0 file.rows with
    | error err =>
      unfold load_transactions load_transactions_inner at h
      by_cases hh : file.header = expected_field_names
      · rw [if_pos hh, h0] at h; cases h
      · rw [if_neg hh] at h; cases h
    | ok rows0 =>
      intro e he
      exact (parseTxnRows_mem h0 e
        ((mem_load_transactions h0 h e).mp he)).2.1
  · intro filename file bals h b hb
    unfold load_balances at h
    by_cases hh : file.header = expected_field_names
    · rw [if_pos hh] at h
      rcases parseBalRows_line h b hb with ⟨hlt, hcur, hdesc⟩
      have hidx : b.line - 0 - 1 = b.line - 1 := by omega
      rw [hidx] at hcur hdesc
      exact ⟨hcur, hdesc⟩
    · rw [if_neg hh] at h; cases h

/-- Witness for the amended claim C9 at concrete loaded files: the
loaded balance record of line 2 carries the `Currency` value of the
file's second row, its own source row. -/
theorem claim_C9_witness :
    ({ account := "Zhuohan Li", date := ⟨2016, 8, 10⟩
       amount := { number := 5, currency := "USD" }
       source_desc := "A", filename := "f", line := 1 } :
        DwightEntry).amount.currency = "USD" ∧
      (([(⟨"2016-08-09", "A", "", "", "USD", "", "7"⟩ : Row),
         ⟨"2016-08-10", "Total balance", "", "", "EUR", "", "5"⟩] :
          List Row).get? (2 - 1)).map Row.currency =
          some ({ account := "Zhuohan Li", date := ⟨2016, 8, 10⟩
                  amount := { number := 5, currency := "EUR" }
                  filename := "f", line := 2 } :
                    RawBalance).amount.currency ∧
        (([(⟨"2016-08-09", "A", "", "", "USD", "", "7"⟩ : Row),
           ⟨"2016-08-10", "Total balance", "", "", "EUR", "", "5"⟩] :
            List Row).get? (2 - 1)).map Row.description =
          some "Total balance" :=
  ⟨claim_C9_amended_currency.1 "f" "USD"
      { header := expected_field_names
        rows := [⟨"2016-08-10", "A", "", "", "USD", "", "5"⟩] }
      [{ account := "Zhuohan Li", date := ⟨2016, 8, 10⟩
         amount := { number := 5, currency := "USD" }
         source_desc := "A", filename := "f", line := 1 }]
      (by decide) _ (by decide),
   claim_C9_amended_currency.2.2 "f"
      { header := expected_field_names
        rows := [⟨"2016-08-09", "A", "", "", "USD", "", "7"⟩,
                 ⟨"2016-08-10", "Total balance", "", "", "EUR", "", "5"⟩] }
      [{ account := "Zhuohan Li", date := ⟨2016, 8, 10⟩
         amount := { number := 5, currency := "EUR" }
         filename := "f", line := 2 }]
      (by decide)
      { account := "Zhuohan Li", date := ⟨2016, 8, 10⟩
        amount := { number := 5, currency := "EUR" }
        filename := "f", line := 2 }
      (by decide)⟩

/-- The transaction row loop never consults the `Zhuohan Li` column. -/
theorem parseTxnRows_mapZhuohan (currency filename : String)
    (f : Row → String) :
    ∀ (i : Nat) (rows : List Row),
      parseTxnRows currency filename i
          (rows.map (fun r => { r with zhuohanLi := f r })) =
        parseTxnRows currency filename i rows := by
  intro i rows
  induction rows generalizing i with
  | nil => rfl
  | cons row rows ih =>
    rw [List.map_cons]
    show parseTxnRows currency filename i
        ({ row with zhuohanLi := f row } ::
          rows.map (fun r => { r with zhuohanLi := f r })) = _
    unfold parseTxnRows
    have hrow : parseTxnRow currency filename (i + 1)
        { row with zhuohanLi := f row } =
        parseTxnRow currency filename (i + 1) row := rfl
    rw [hrow, ih]

/-- The balance row loop never consults the `Zhuohan Li` column. -/
theorem parseBalRows_mapZhuohan (filename : String) (f : Row → String) :
    ∀ (i : Nat) (rows : List Row),
      parseBalRows filename i
          (rows.map (fun r => { r with zhuohanLi := f r })) =
        parseBalRows filename i rows := by
  intro i rows
  induction rows generalizing i with
  | nil => rfl
  | cons row rows ih =>
    rw [List.map_cons]
    show parseBalRows filename i
        ({ row with zhuohanLi := f row } ::
          rows.map (fun r => { r with zhuohanLi := f r })) = _
    unfold parseBalRows
    have hrow : parseBalRow filename (i + 1)
        { row with zhuohanLi := f row } =
        parseBalRow filename (i + 1) row := rfl
    rw [hrow, ih]

/-- Claim C10 (confirmed): every record produced by either loader has
the single fixed external account id `"Zhuohan Li"`, and rewriting the
file's `Zhuohan Li` column arbitrarily changes neither loader's result
— the account column is never consulted, so all loaded records resolve
through at most one ledger account mapping. -/
theorem claim_C10_constant_account :
    (∀ (filename currency : String) (file : CsvFile)
        (entries : List DwightEntry),
      load_transactions filename file currency = .ok entries →
        ∀ e ∈ entries, e.account = "Zhuohan Li") ∧
      (∀ (filename : String) (file : CsvFile) (bals : List RawBalance),
        load_balances filename file = .ok bals →
          ∀ b ∈ bals, b.account = "Zhuohan Li") ∧
      (∀ (f : Row → String) (filename currency : String) (file : CsvFile),
        load_transactions filename (mapZhuohanLi f file) currency =
          load_transactions filename file currency) ∧
      (∀ (f : Row → String) (filename : String) (file : CsvFile),
        load_balances filename (mapZhuohanLi f file) =
          load_balances filename file) := by
  refine ⟨?_, ?_, ?_, ?_⟩
  · intro filename currency file entries h
    cases h0 : parseTxnRows currency filename 0 file.rows with
    | error err =>
      unfold load_transactions load_transactions_inner at h
      by_cases hh : file.header = expected_field_names
      · rw [if_pos hh, h0] at h; cases h
      · rw [if_neg hh] at h; cases h
    | ok rows0 =>
      intro e he
      exact (parseTxnRows_mem h0 e
        ((mem_load_transactions h0 h e).mp he)).2.2
  · intro filename file bals h b hb
    unfold load_balances at h
    by_cases hh : file.header = expected_field_names
    · rw [if_pos hh] at h
      exact (parseBalRows_mem h b hb).1
    · rw [if_neg hh] at h; cases h
  · intro f filename currency file
    unfold load_transactions load_transactions_inner mapZhuohanLi
    dsimp only
    rw [parseTxnRows_mapZhuohan]
  · intro f filename file
    unfold load_balances mapZhuohanLi
    dsimp only
    rw [parseBalRows_mapZhuohan]

/-- Witness for claim C10 at a concrete file, including invariance
under overwriting the `Zhuohan Li` column. -/
theorem claim_C10_witness :
    ({ account := "Zhuohan Li", date := ⟨2016, 8, 10⟩
       amount := { number := 5, currency := "USD" }
       source_desc := "A", filename := "f", line := 1 } :
        DwightEntry).account = "Zhuohan Li" ∧
      ({ account := "Zhuohan Li", date := ⟨2016, 8, 10⟩
         amount := { number := 5, currency := "EUR" }
         filename := "f", line := 1 } :
          RawBalance).account = "Zhuohan Li" ∧
      load_transactions "f"
          (mapZhuohanLi (fun _ => "SOMEONE ELSE")
            { header := expected_field_names
              rows := [⟨"2016-08-10", "A", "", "", "USD", "", "5"⟩] })
          "USD" =
        load_transactions "f"
          { header := expected_field_names
            rows := [⟨"2016-08-10", "A", "", "", "USD", "", "5"⟩] }
          "USD" :=
  ⟨claim_C10_constant_account.1 "f" "USD"
      { header := expected_field_names
        rows := [⟨"2016-08-10", "A", "", "", "USD", "", "5"⟩] }
      [{ account := "Zhuohan Li", date := ⟨2016, 8, 10⟩
         amount := { number := 5, currency := "USD" }
         source_desc := "A", filename := "f", line := 1 }]
      (by decide) _ (by decide),
   claim_C10_constant_account.2.1 "f"
      { header := expected_field_names
        rows := [⟨"2016-08-10", "Total balance", "", "", "EUR", "", "5"⟩] }
      [{ account := "Zhuohan Li", date := ⟨2016, 8, 10⟩
         amount := { number := 5, currency := "EUR" }
         filename := "f", line := 1 }]
      (by decide) _ (by decide),
   claim_C10_constant_account.2.2.1 (fun _ => "SOMEONE ELSE") "f" "USD"
      { header := expected_field_names
        rows := [⟨"2016-08-10", "A", "", "", "USD", "", "5"⟩] }⟩

end Dwight
